import Mathlib

/-!
# HololensFaceSearch: FaceTrackerProcessor

A shallow embedding of `Content/FaceTrackerProcessor.{h,cpp}`:

* `BitmapBounds` has four `uint32` fields; they are natural numbers here and
  every `uint32` operation of the source is written with an explicit
  `% 4294967296`.
* `float` values are IEEE 754 binary32 values (`F32`), with round to nearest,
  ties to even, for the two float operations `ComputeIoU` performs: the
  conversion `uint32 -> float` and the division.
* `std::chrono::steady_clock::time_point` is an integer count of clock ticks
  (nanoseconds, the period of `steady_clock`).
* `std::map<unsigned int, TrackedFace>` is a list of key/value pairs in
  ascending key order, the order in which the source iterates the map.
* `CaptureFaceImage` starts an asynchronous encode-and-send task; its
  invocations are recorded in a call log, and the bounds it computes for the
  crop are the function `adjustedBounds`.
-/

namespace HolographicFaceTracker

/-! ## Machine integers and floats -/

/-- Number of values of `uint32_t` / `unsigned int` / `UINT32`. -/
def U32 : Nat := 4294967296

/-- The macro `max(a,b)`, `(((a) > (b)) ? (a) : (b))`, on unsigned values. -/
def umax (a b : Nat) : Nat := if a > b then a else b

/-- The macro `min(a,b)`, `(((a) < (b)) ? (a) : (b))`, on unsigned values. -/
def umin (a b : Nat) : Nat := if a < b then a else b

/-- Non-negative binary32 values: `fin m e` is the number `m * 2 ^ e`.
Results of `fdiv` are normalised: `m = 0 ∧ e = 0`, or `2 ^ 23 ≤ m < 2 ^ 24`. -/
inductive F32 where
  | nan : F32
  | inf : F32
  | fin (m : Nat) (e : Int) : F32
deriving DecidableEq

/-- The float `0.0f`. -/
def F32.zero : F32 := .fin 0 0

/-- The float `1.0f`, that is `2 ^ 23 * 2 ^ (-23)`. -/
def F32.one : F32 := .fin 8388608 (-23)

/-- The rational value of a finite float. -/
def F32.toRat? : F32 → Option ℚ
  | .nan => none
  | .inf => none
  | .fin m e => some ((m : ℚ) * (2 : ℚ) ^ e)

/-- The comparison `x > 0.5f` (false for NaN, true for +infinity). -/
def F32.gtHalf : F32 → Bool
  | .nan => false
  | .inf => true
  | .fin m e =>
    if 0 ≤ e + 1 then decide (1 < m * 2 ^ (e + 1).toNat)
    else decide (2 ^ (-(e + 1)).toNat < m)

/-- Number of binary digits of `n`, for `n < 2 ^ fuel`. -/
def bitLen : Nat → Nat → Nat
  | 0, _ => 0
  | fuel + 1, n => if n = 0 then 0 else bitLen fuel (n / 2) + 1

/-- The quotient `n / d` rounded to the nearest integer, ties to even. -/
def roundNearestEven (n d : Nat) : Nat :=
  let q := n / d
  let r := n % d
  if 2 * r < d then q
  else if d < 2 * r then q + 1
  else if q % 2 = 0 then q else q + 1

/-- The conversion `static_cast<float>(n)` of a `uint32_t`: `n` rounded to 24
significant bits. The result is an integer, returned as a natural number. -/
def u32ToFloat (n : Nat) : Nat :=
  let k := bitLen 33 n - 24
  roundNearestEven n (2 ^ k) * 2 ^ k

/-- The float division `a / b` of two floats whose values are the natural
numbers `a` and `b` (at most `2 ^ 32`, so the quotient is in the normal
range): `0/0` is NaN, `a/0` is +infinity, otherwise the quotient rounded to 24
significant bits. -/
def fdiv (a b : Nat) : F32 :=
  if b = 0 then (if a = 0 then .nan else .inf)
  else if a = 0 then .fin 0 0
  else
    let la := bitLen 34 a
    let lb := bitLen 34 b
    let a' := a * 2 ^ lb
    let b' := b * 2 ^ la
    -- `a' / b'` lies strictly between 1/2 and 2
    let num := if b' ≤ a' then a' * 2 ^ 23 else a' * 2 ^ 24
    let e : Int := if b' ≤ a' then (la : Int) - lb else (la : Int) - lb - 1
    let m := roundNearestEven num b'
    if m = 16777216 then .fin 8388608 (e - 22) else .fin m (e - 23)

/-! ## Data model -/

/-- `Windows::Graphics::Imaging::BitmapBounds`: four `uint32` fields. -/
structure BitmapBounds where
  X : Nat
  Y : Nat
  Width : Nat
  Height : Nat
deriving DecidableEq

/-- `struct TrackedFace` of `FaceTrackerProcessor.h`. -/
structure TrackedFace where
  FaceBox : BitmapBounds
  StartTime : Int
  ImageCaptured : Bool
deriving DecidableEq

/-- `std::map<unsigned int, TrackedFace>`: pairs in ascending key order. -/
abbrev FaceMap := List (Nat × TrackedFace)

/-- Lookup of a key in the map. -/
def FaceMap.lookup (k : Nat) : FaceMap → Option TrackedFace
  | [] => none
  | (k', v) :: rest => if k' = k then some v else FaceMap.lookup k rest

/-- The assignment `m[k] = v`: overwrite the record under `k`, or insert it
at its place in key order. -/
def FaceMap.assign (k : Nat) (v : TrackedFace) : FaceMap → FaceMap
  | [] => [(k, v)]
  | (k', v') :: rest =>
    if k < k' then (k, v) :: (k', v') :: rest
    else if k = k' then (k, v) :: rest
    else (k', v') :: FaceMap.assign k v rest

/-- The map invariant: keys strictly ascending. -/
def FaceMap.WF (m : FaceMap) : Prop := (m.map Prod.fst).Pairwise (· < ·)

/-! ## ComputeIoU -/

/-- `FaceTrackerProcessor::ComputeIoU`. -/
def ComputeIoU (rectA rectB : BitmapBounds) : F32 :=
  let xA := umax rectA.X rectB.X
  let yA := umax rectA.Y rectB.Y
  let xB := umin ((rectA.X + rectA.Width) % U32) ((rectB.X + rectB.Width) % U32)
  let yB := umin ((rectA.Y + rectA.Height) % U32) ((rectB.Y + rectB.Height) % U32)
  if xA ≥ xB ∨ yA ≥ yB then F32.zero
  else
    let interArea := ((xB - xA) * (yB - yA)) % U32
    let boxAArea := (rectA.Width * rectA.Height) % U32
    let boxBArea := (rectB.Width * rectB.Height) % U32
    fdiv (u32ToFloat interArea)
      (u32ToFloat ((boxAArea + boxBArea + (U32 - interArea)) % U32))

/-! ## CaptureFaceImage: the crop bounds -/

/-- The conversion `static_cast<UINT32>(i)` of an `int`. -/
def toUINT32 (i : Int) : Nat := (i % 4294967296).toNat

/-- The `adjustedBounds` computed by `FaceTrackerProcessor::CaptureFaceImage`
from the face box and the bitmap's `PixelWidth` and `PixelHeight` (`int`
properties). In `PixelWidth - adjustedBounds.X` the `int` is converted to
unsigned and the subtraction is modulo `2 ^ 32`. -/
def adjustedBounds (faceBox : BitmapBounds) (PixelWidth PixelHeight : Int) : BitmapBounds :=
  let x := umin faceBox.X (toUINT32 (PixelWidth - 1))
  let y := umin faceBox.Y (toUINT32 (PixelHeight - 1))
  let w := umin faceBox.Width (toUINT32 (((toUINT32 PixelWidth : Nat) : Int) - x))
  let h := umin faceBox.Height (toUINT32 (((toUINT32 PixelHeight : Nat) : Int) - y))
  { X := x, Y := y, Width := w, Height := h }

/-! ## ProcessFrame -/

/-- Ticks of `steady_clock` per second. -/
def ticksPerSecond : Int := 1000000000

/-- The member `m_captureThreshold = 3.0`, in seconds. -/
def m_captureThreshold : Int := 3

/-- The test `duration >= m_captureThreshold`, where `duration` is
`now - StartTime` in seconds as a `double`. The tick count converts to
`double` exactly and the quotient by `1e9` is correctly rounded, so the test
holds exactly when the tick count is at least `3 * 10 ^ 9`. -/
def durationReached (now startTime : Int) : Bool :=
  decide (m_captureThreshold * ticksPerSecond ≤ now - startTime)

/-- The inner loop of `ProcessFrame` over `m_trackedFaces`: the id of the first
tracked face, in key order, whose IoU with `faceBox` is above `0.5f`. -/
def findMatch (faceBox : BitmapBounds) : FaceMap → Option Nat
  | [] => none
  | (existingFaceId, existingFace) :: rest =>
    if (ComputeIoU faceBox existingFace.FaceBox).gtHalf then some existingFaceId
    else findMatch faceBox rest

/-- The variables the loop over the detected faces reads and writes, with the
log of the calls `CaptureFaceImage(existingFace)` (each with the id of the
face it is made for). -/
structure LoopState where
  m_trackedFaces : FaceMap
  currentFaces : FaceMap
  faceId : Nat
  captureCalls : List (Nat × TrackedFace)
deriving DecidableEq

/-- The value-initialised `TrackedFace` that `operator[]` inserts for a
missing key. -/
def TrackedFace.zero : TrackedFace :=
  { FaceBox := { X := 0, Y := 0, Width := 0, Height := 0 }, StartTime := 0, ImageCaptured := false }

/-- One iteration of `for (DetectedFace^ detectedFace : faces)`. -/
def processDetection (now : Int) (s : LoopState) (faceBox : BitmapBounds) : LoopState :=
  match findMatch faceBox s.m_trackedFaces with
  | some matchedId =>
    let existingFace := (FaceMap.lookup matchedId s.m_trackedFaces).getD TrackedFace.zero
    let updated : TrackedFace := { existingFace with FaceBox := faceBox }
    let fire := !updated.ImageCaptured && durationReached now updated.StartTime
    let stored : TrackedFace := if fire then { updated with ImageCaptured := true } else updated
    { m_trackedFaces := FaceMap.assign matchedId stored s.m_trackedFaces
      currentFaces := FaceMap.assign matchedId stored s.currentFaces
      faceId := s.faceId
      captureCalls := if fire then s.captureCalls ++ [(matchedId, updated)] else s.captureCalls }
  | none =>
    let newFace : TrackedFace := { FaceBox := faceBox, StartTime := now, ImageCaptured := false }
    { m_trackedFaces := s.m_trackedFaces
      currentFaces := FaceMap.assign s.faceId newFace s.currentFaces
      faceId := (s.faceId + 1) % U32
      captureCalls := s.captureCalls }

/-- The loop over the detected faces, from `currentFaces` empty and
`faceId = 0`. -/
def detectionLoop (now : Int) (tracked : FaceMap) (faces : List BitmapBounds) : LoopState :=
  faces.foldl (processDetection now)
    { m_trackedFaces := tracked, currentFaces := [], faceId := 0, captureCalls := [] }

/-- What one `ProcessFrame` leaves behind: the members `m_trackedFaces` and
`m_latestFaces`, the calls of `CaptureFaceImage` it made, and the final value
of the local counter `faceId`. -/
structure FrameResult where
  m_trackedFaces : FaceMap
  m_latestFaces : List BitmapBounds
  captureCalls : List (Nat × TrackedFace)
  faceId : Nat
deriving DecidableEq

/-- `FaceTrackerProcessor::ProcessFrame`, for a frame on which the face
tracker returned `faces` and `steady_clock::now()` returned `now`. -/
def ProcessFrame (tracked : FaceMap) (faces : List BitmapBounds) (now : Int) : FrameResult :=
  let s := detectionLoop now tracked faces
  { m_trackedFaces := s.currentFaces
    m_latestFaces := faces
    captureCalls := s.captureCalls
    faceId := s.faceId }

/-- The worker thread's `while (m_isRunning) ProcessFrame();` over a list of
frames (detections and clock reading): the result of every update. -/
def runFrames (tracked : FaceMap) : List (List BitmapBounds × Int) → List FrameResult
  | [] => []
  | frame :: rest =>
    let r := ProcessFrame tracked frame.1 frame.2
    r :: runFrames r.m_trackedFaces rest

/-- The area of the intersection of two rectangles in exact integer
arithmetic (a side that would be negative counts as zero). -/
def exactIntersectionArea (a b : BitmapBounds) : Nat :=
  (min (a.X + a.Width) (b.X + b.Width) - max a.X b.X) *
    (min (a.Y + a.Height) (b.Y + b.Height) - max a.Y b.Y)

/-- The `ImageCaptured` flag stored under `id`, if `id` is a key of the map. -/
def capturedFlag (id : Nat) (m : FaceMap) : Option Bool :=
  (FaceMap.lookup id m).map (fun f => f.ImageCaptured)

/-- Number of calls of `CaptureFaceImage` made for the face `id` in a call log. -/
def callCount (id : Nat) (calls : List (Nat × TrackedFace)) : Nat :=
  (calls.map Prod.fst).count id

/-- What the detection loop maintains for a face `j`, relative to the map
`m0` it started from: `CaptureFaceImage` is called at most once for `j`; a call
is made only for a face whose flag was clear in `m0` and leaves the flag set in
`m_trackedFaces`; a flag set in `m0` stays set; the keys and the start times of
`m_trackedFaces` do not change. -/
def LoopInv (m0 : FaceMap) (s : LoopState) (j : Nat) : Prop :=
  callCount j s.captureCalls ≤ 1 ∧
  (callCount j s.captureCalls = 1 →
    capturedFlag j m0 = some false ∧ capturedFlag j s.m_trackedFaces = some true) ∧
  (capturedFlag j m0 = some true → capturedFlag j s.m_trackedFaces = some true) ∧
  (FaceMap.lookup j s.m_trackedFaces = none ↔ FaceMap.lookup j m0 = none) ∧
  (∀ f g, FaceMap.lookup j m0 = some f → FaceMap.lookup j s.m_trackedFaces = some g →
    g.StartTime = f.StartTime) ∧
  (∀ c ∈ s.captureCalls, c.1 = j →
    ∃ f, FaceMap.lookup j m0 = some f ∧ f.ImageCaptured = false ∧
      c.2.StartTime = f.StartTime ∧ c.2.ImageCaptured = false)

/-- The tracked set `m_trackedFaces` after a list of updates. -/
def finalTracked (tracked : FaceMap) : List (List BitmapBounds × Int) → FaceMap
  | [] => tracked
  | frame :: rest => finalTracked (ProcessFrame tracked frame.1 frame.2).m_trackedFaces rest

/-- The calls of `CaptureFaceImage` made by update number `k` of a run
(counting from 0). -/
def callsAt (results : List FrameResult) (k : Nat) : List (Nat × TrackedFace) :=
  (results.map (fun r => r.captureCalls)).getD k []

/-- The statement "`k` is the least index with `t_k - t0 ≥ m_captureThreshold`"
for the update times `times` (in clock ticks). -/
def firstReached (t0 : Int) (times : List Int) (k : Nat) : Prop :=
  m_captureThreshold * ticksPerSecond ≤ times.getD k 0 - t0 ∧
    ∀ j, j < k → times.getD j 0 - t0 < m_captureThreshold * ticksPerSecond

/-- The `MaxDetectableFaceSize` that `CreateAsync` sets on the face tracker:
`BitmapSize{ 512u, 512u }`. -/
def MaxDetectableFaceSize : Nat := 512

/-- The `MinDetectableFaceSize` that `CreateAsync` sets on the face tracker:
`BitmapSize{ 64u, 64u }`. -/
def MinDetectableFaceSize : Nat := 64

/-- A face box the face tracker can return for a frame: its width and height
are at most `MaxDetectableFaceSize`, and it lies in the frame's bitmap, whose
`PixelWidth` and `PixelHeight` are `int`s (at most `2 ^ 31 - 1`). -/
def DetectedFaceBox (box : BitmapBounds) : Prop :=
  box.Width ≤ MaxDetectableFaceSize ∧ box.Height ≤ MaxDetectableFaceSize ∧
    box.X + box.Width ≤ 2147483647 ∧ box.Y + box.Height ≤ 2147483647

/-! ## Floats: basic facts -/

theorem F32.one_toRat : F32.one.toRat? = some 1 := by
  simp [F32.one, F32.toRat?]
  norm_num

theorem F32.zero_toRat : F32.zero.toRat? = some 0 := by
  simp [F32.zero, F32.toRat?]

theorem F32.one_gtHalf : F32.one.gtHalf = true := by decide

theorem F32.zero_gtHalf : F32.zero.gtHalf = false := by decide

theorem bitLen_zero (fuel : Nat) : bitLen fuel 0 = 0 := by
  cases fuel <;> simp [bitLen]

theorem pow_bitLen_pred_le (fuel n : Nat) (hn : n ≠ 0) : 2 ^ (bitLen fuel n - 1) ≤ n := by
  induction fuel generalizing n with
  | zero => simp [bitLen]; omega
  | succ f ih =>
    simp only [bitLen, hn, if_false, Nat.add_sub_cancel]
    by_cases h2 : n / 2 = 0
    · rw [h2, bitLen_zero]; simp; omega
    · have h := ih (n / 2) h2
      by_cases h0 : bitLen f (n / 2) = 0
      · rw [h0]; simp; omega
      · have h3 : 2 ^ bitLen f (n / 2) = 2 ^ (bitLen f (n / 2) - 1) * 2 := by
          rw [← pow_succ]; congr 1; omega
        rw [h3]
        omega

theorem le_roundNearestEven (n d : Nat) : n / d ≤ roundNearestEven n d := by
  unfold roundNearestEven
  simp only
  split_ifs <;> omega

theorem u32ToFloat_pos (n : Nat) (hn : n ≠ 0) : u32ToFloat n ≠ 0 := by
  unfold u32ToFloat
  simp only
  have hle : 2 ^ (bitLen 33 n - 24) ≤ n :=
    le_trans (Nat.pow_le_pow_right (by norm_num) (by omega)) (pow_bitLen_pred_le 33 n hn)
  have hq : 1 ≤ n / 2 ^ (bitLen 33 n - 24) :=
    (Nat.one_le_div_iff (by positivity)).mpr hle
  have hr := le_roundNearestEven n (2 ^ (bitLen 33 n - 24))
  have hp : 0 < 2 ^ (bitLen 33 n - 24) := by positivity
  have : 0 < roundNearestEven n (2 ^ (bitLen 33 n - 24)) * 2 ^ (bitLen 33 n - 24) :=
    Nat.mul_pos (by omega) hp
  omega

theorem fdiv_self (a : Nat) (ha : a ≠ 0) : fdiv a a = F32.one := by
  have hpos : 0 < a * 2 ^ bitLen 34 a := Nat.mul_pos (Nat.pos_of_ne_zero ha) (by positivity)
  have hq : a * 2 ^ bitLen 34 a * 2 ^ 23 / (a * 2 ^ bitLen 34 a) = 8388608 := by
    rw [Nat.mul_div_cancel_left _ hpos]; norm_num
  have hr : a * 2 ^ bitLen 34 a * 2 ^ 23 % (a * 2 ^ bitLen 34 a) = 0 :=
    Nat.mul_mod_right _ _
  have hround : roundNearestEven (a * 2 ^ bitLen 34 a * 2 ^ 23) (a * 2 ^ bitLen 34 a) = 8388608 := by
    unfold roundNearestEven
    simp only [hq, hr]
    simp [hpos]
  unfold fdiv
  simp only [ha, if_false, le_refl, if_true, hround]
  simp [F32.one]

/-! ## ComputeIoU -/

theorem ComputeIoU_self (r : BitmapBounds) (hx : r.X + r.Width < U32)
    (hy : r.Y + r.Height < U32) (ha : (r.Width * r.Height) % U32 ≠ 0) :
    ComputeIoU r r = F32.one := by
  have hw : r.Width ≠ 0 := by rintro h; simp [h] at ha
  have hh : r.Height ≠ 0 := by rintro h; simp [h] at ha
  have hxm : (r.X + r.Width) % U32 = r.X + r.Width := Nat.mod_eq_of_lt hx
  have hym : (r.Y + r.Height) % U32 = r.Y + r.Height := Nat.mod_eq_of_lt hy
  have hxx : r.X + r.Width - r.X = r.Width := by omega
  have hyy : r.Y + r.Height - r.Y = r.Height := by omega
  have hlt : (r.Width * r.Height) % U32 < U32 := Nat.mod_lt _ (by unfold U32; norm_num)
  have hden : ((r.Width * r.Height) % U32 + (r.Width * r.Height) % U32
      + (U32 - (r.Width * r.Height) % U32)) % U32 = (r.Width * r.Height) % U32 := by
    unfold U32 at *; omega
  unfold ComputeIoU
  simp only [umax, umin, lt_irrefl, if_false, gt_iff_lt, ge_iff_le, hxm, hym, hxx, hyy, hden]
  rw [if_neg (by omega)]
  exact fdiv_self _ (u32ToFloat_pos _ ha)

/-! ## The map -/

theorem FaceMap.lookup_assign_self (k : Nat) (v : TrackedFace) (m : FaceMap) :
    FaceMap.lookup k (FaceMap.assign k v m) = some v := by
  induction m with
  | nil => simp [FaceMap.assign, FaceMap.lookup]
  | cons p rest ih =>
    obtain ⟨k', v'⟩ := p
    simp only [FaceMap.assign]
    split_ifs with h1 h2
    · simp [FaceMap.lookup]
    · simp [FaceMap.lookup]
    · simp only [FaceMap.lookup]
      rw [if_neg (Ne.symm h2)]
      exact ih

theorem FaceMap.lookup_assign_ne (j k : Nat) (v : TrackedFace) (m : FaceMap) (h : j ≠ k) :
    FaceMap.lookup j (FaceMap.assign k v m) = FaceMap.lookup j m := by
  induction m with
  | nil => simp [FaceMap.assign, FaceMap.lookup, Ne.symm h]
  | cons p rest ih =>
    obtain ⟨k', v'⟩ := p
    simp only [FaceMap.assign]
    split_ifs with h1 h2
    · simp [FaceMap.lookup, Ne.symm h]
    · subst h2
      simp [FaceMap.lookup, Ne.symm h]
    · simp only [FaceMap.lookup]
      rw [ih]

theorem FaceMap.mem_keys_assign (j k : Nat) (v : TrackedFace) (m : FaceMap)
    (h : j ∈ (FaceMap.assign k v m).map Prod.fst) : j = k ∨ j ∈ m.map Prod.fst := by
  induction m with
  | nil => simpa [FaceMap.assign] using h
  | cons p rest ih =>
    obtain ⟨k', v'⟩ := p
    simp only [FaceMap.assign] at h
    split_ifs at h with h1 h2
    · simpa using h
    · subst h2
      simpa using h
    · simp only [List.map_cons, List.mem_cons] at h ⊢
      rcases h with h | h
      · exact Or.inr (Or.inl h)
      · rcases ih h with h | h
        · exact Or.inl h
        · exact Or.inr (Or.inr h)

theorem FaceMap.assign_WF (k : Nat) (v : TrackedFace) (m : FaceMap) (h : FaceMap.WF m) :
    FaceMap.WF (FaceMap.assign k v m) := by
  induction m with
  | nil => simp [FaceMap.assign, FaceMap.WF]
  | cons p rest ih =>
    obtain ⟨k', v'⟩ := p
    simp only [FaceMap.WF, List.map_cons, List.pairwise_cons] at h
    obtain ⟨hhead, htail⟩ := h
    simp only [FaceMap.assign]
    split_ifs with h1 h2
    · simp only [FaceMap.WF, List.map_cons, List.pairwise_cons, List.mem_cons]
      refine ⟨?_, hhead, htail⟩
      rintro a (ha | ha)
      · omega
      · have := hhead a ha
        omega
    · subst h2
      simp only [FaceMap.WF, List.map_cons, List.pairwise_cons]
      exact ⟨hhead, htail⟩
    · simp only [FaceMap.WF, List.map_cons, List.pairwise_cons]
      refine ⟨?_, ih htail⟩
      intro a ha
      rcases FaceMap.mem_keys_assign a k v rest ha with ha | ha
      · omega
      · exact hhead a ha

theorem findMatch_lookup (d : BitmapBounds) (m : FaceMap) (k : Nat)
    (h : findMatch d m = some k) : ∃ e, FaceMap.lookup k m = some e := by
  induction m with
  | nil => simp [findMatch] at h
  | cons p rest ih =>
    obtain ⟨k', v'⟩ := p
    simp only [findMatch] at h
    simp only [FaceMap.lookup]
    split_ifs at h with h1
    · simp only [Option.some.injEq] at h
      subst h
      exact ⟨v', by simp⟩
    · obtain ⟨e, he⟩ := ih h
      by_cases hk : k' = k
      · exact ⟨v', by simp [hk]⟩
      · exact ⟨e, by simp [hk, he]⟩

theorem capturedFlag_assign_self (k : Nat) (v : TrackedFace) (m : FaceMap) :
    capturedFlag k (FaceMap.assign k v m) = some v.ImageCaptured := by
  simp [capturedFlag, FaceMap.lookup_assign_self]

theorem capturedFlag_assign_ne (j k : Nat) (v : TrackedFace) (m : FaceMap) (h : j ≠ k) :
    capturedFlag j (FaceMap.assign k v m) = capturedFlag j m := by
  simp [capturedFlag, FaceMap.lookup_assign_ne j k v m h]

theorem callCount_append (j k : Nat) (x : TrackedFace) (calls : List (Nat × TrackedFace)) :
    callCount j (calls ++ [(k, x)]) = callCount j calls + (if k = j then 1 else 0) := by
  simp [callCount, List.count_cons, List.count_nil]

/-! ## One iteration of the detection loop -/

theorem processDetection_unmatched (now : Int) (s : LoopState) (d : BitmapBounds)
    (hf : findMatch d s.m_trackedFaces = none) :
    processDetection now s d =
      { m_trackedFaces := s.m_trackedFaces
        currentFaces := FaceMap.assign s.faceId ⟨d, now, false⟩ s.currentFaces
        faceId := (s.faceId + 1) % U32
        captureCalls := s.captureCalls } := by
  simp [processDetection, hf]

theorem processDetection_matched (now : Int) (s : LoopState) (d : BitmapBounds) (k : Nat)
    (e : TrackedFace) (hf : findMatch d s.m_trackedFaces = some k)
    (hl : FaceMap.lookup k s.m_trackedFaces = some e) :
    processDetection now s d =
      { m_trackedFaces := FaceMap.assign k
          ⟨d, e.StartTime, e.ImageCaptured || durationReached now e.StartTime⟩ s.m_trackedFaces
        currentFaces := FaceMap.assign k
          ⟨d, e.StartTime, e.ImageCaptured || durationReached now e.StartTime⟩ s.currentFaces
        faceId := s.faceId
        captureCalls :=
          if (!e.ImageCaptured && durationReached now e.StartTime) = true then
            s.captureCalls ++ [(k, ⟨d, e.StartTime, false⟩)]
          else s.captureCalls } := by
  obtain ⟨box, st, cap⟩ := e
  cases cap <;> cases hr : durationReached now st <;>
    simp [processDetection, hf, hl, hr]

theorem foldl_processDetection_induction (now : Int) (P : LoopState → Prop)
    (hstep : ∀ s d, P s → P (processDetection now s d))
    (faces : List BitmapBounds) (s : LoopState) (h0 : P s) :
    P (faces.foldl (processDetection now) s) := by
  induction faces generalizing s with
  | nil => exact h0
  | cons d ds ih => exact ih _ (hstep s d h0)

theorem LoopInv_init (m0 : FaceMap) (j : Nat) :
    LoopInv m0 { m_trackedFaces := m0, currentFaces := [], faceId := 0, captureCalls := [] } j := by
  refine ⟨by simp [callCount], by simp [callCount], fun h => h, Iff.rfl, ?_, by simp⟩
  intro f g hf hg
  rw [hf] at hg
  cases hg
  rfl

theorem LoopInv_step (now : Int) (m0 : FaceMap) (j : Nat) (s : LoopState) (d : BitmapBounds)
    (h : LoopInv m0 s j) : LoopInv m0 (processDetection now s d) j := by
  cases hfm : findMatch d s.m_trackedFaces with
  | none =>
    rw [processDetection_unmatched now s d hfm]
    exact h
  | some k =>
    obtain ⟨e, he⟩ := findMatch_lookup d _ k hfm
    rw [processDetection_matched now s d k e hfm he]
    obtain ⟨h1, h2, h3, h4, h5, h6⟩ := h
    by_cases hjk : j = k
    · subst hjk
      have hflag : capturedFlag j s.m_trackedFaces = some e.ImageCaptured := by
        simp [capturedFlag, he]
      have hne0 : FaceMap.lookup j m0 ≠ none := by
        intro h0
        rw [h4.mpr h0] at he
        cases he
      obtain ⟨f0, hf0⟩ := Option.ne_none_iff_exists'.mp hne0
      have hst : e.StartTime = f0.StartTime := h5 f0 e hf0 he
      cases hc : e.ImageCaptured <;> cases hr : durationReached now e.StartTime
      · -- flag clear, threshold not reached: nothing changes
        refine ⟨by simpa using h1, ?_, ?_, ?_, ?_, by simpa using h6⟩
        · intro hcount
          have := h2 (by simpa using hcount)
          rw [hflag, hc] at this
          simp at this
        · intro h0
          have := h3 h0
          rw [hflag, hc] at this
          simp at this
        · simp [FaceMap.lookup_assign_self, hne0]
        · intro f g hf hg
          rw [FaceMap.lookup_assign_self] at hg
          cases hg
          rw [hf0] at hf
          cases hf
          exact hst
      · -- flag clear, threshold reached: the call is made
        have hcount0 : callCount j s.captureCalls = 0 := by
          by_contra hne
          have h1' : callCount j s.captureCalls = 1 := by omega
          have := (h2 h1').2
          rw [hflag, hc] at this
          simp at this
        have hflag0 : capturedFlag j m0 = some false := by
          have hf0c : capturedFlag j m0 = some f0.ImageCaptured := by
            simp [capturedFlag, hf0]
          cases hfc : f0.ImageCaptured
          · rw [hf0c, hfc]
          · rw [hfc] at hf0c
            have := h3 hf0c
            rw [hflag, hc] at this
            simp at this
        refine ⟨?_, ?_, ?_, ?_, ?_, ?_⟩
        · simp [callCount_append, hcount0]
        · intro _
          exact ⟨hflag0, by simp [capturedFlag_assign_self]⟩
        · intro _
          simp [capturedFlag_assign_self]
        · simp [FaceMap.lookup_assign_self, hne0]
        · intro f g hf hg
          rw [FaceMap.lookup_assign_self] at hg
          cases hg
          rw [hf0] at hf
          cases hf
          exact hst
        · intro c hcmem hcj
          simp only [Bool.not_false, Bool.true_and, if_true, List.mem_append,
            List.mem_singleton] at hcmem
          rcases hcmem with hcmem | hcmem
          · exact h6 c hcmem hcj
          · subst hcmem
            refine ⟨f0, hf0, ?_, hst, rfl⟩
            have hf0c : capturedFlag j m0 = some f0.ImageCaptured := by
              simp [capturedFlag, hf0]
            rw [hflag0] at hf0c
            simpa using hf0c.symm
      · -- flag already set
        refine ⟨by simpa using h1, ?_, ?_, ?_, ?_, by simpa using h6⟩
        · intro hcount
          exact ⟨(h2 (by simpa using hcount)).1, by simp [capturedFlag_assign_self]⟩
        · intro _
          simp [capturedFlag_assign_self]
        · simp [FaceMap.lookup_assign_self, hne0]
        · intro f g hf hg
          rw [FaceMap.lookup_assign_self] at hg
          cases hg
          rw [hf0] at hf
          cases hf
          exact hst
      · refine ⟨by simpa using h1, ?_, ?_, ?_, ?_, by simpa using h6⟩
        · intro hcount
          exact ⟨(h2 (by simpa using hcount)).1, by simp [capturedFlag_assign_self]⟩
        · intro _
          simp [capturedFlag_assign_self]
        · simp [FaceMap.lookup_assign_self, hne0]
        · intro f g hf hg
          rw [FaceMap.lookup_assign_self] at hg
          cases hg
          rw [hf0] at hf
          cases hf
          exact hst
    · have hcnt : ∀ x : TrackedFace,
          callCount j (s.captureCalls ++ [(k, x)]) = callCount j s.captureCalls := by
        intro x
        rw [callCount_append, if_neg (Ne.symm hjk)]
        rfl
      refine ⟨?_, ?_, ?_, ?_, ?_, ?_⟩
      · show callCount j (if _ then _ else _) ≤ 1
        split_ifs
        · rw [hcnt]; exact h1
        · exact h1
      · show callCount j (if _ then _ else _) = 1 → _
        rw [capturedFlag_assign_ne j k _ _ hjk]
        split_ifs
        · rw [hcnt]; exact h2
        · exact h2
      · show _ → capturedFlag j (FaceMap.assign k _ _) = _
        rw [capturedFlag_assign_ne j k _ _ hjk]
        exact h3
      · show FaceMap.lookup j (FaceMap.assign k _ _) = none ↔ _
        rw [FaceMap.lookup_assign_ne j k _ _ hjk]
        exact h4
      · intro f g hf hg
        change FaceMap.lookup j (FaceMap.assign k _ _) = some g at hg
        rw [FaceMap.lookup_assign_ne j k _ _ hjk] at hg
        exact h5 f g hf hg
      · intro c hcmem hcj
        change c ∈ (if _ then _ else _) at hcmem
        split_ifs at hcmem
        · simp only [List.mem_append, List.mem_singleton] at hcmem
          rcases hcmem with hcmem | hcmem
          · exact h6 c hcmem hcj
          · subst hcmem
            exact absurd hcj.symm hjk
        · exact h6 c hcmem hcj

theorem LoopInv_detectionLoop (now : Int) (m0 : FaceMap) (faces : List BitmapBounds) (j : Nat) :
    LoopInv m0 (detectionLoop now m0 faces) j :=
  foldl_processDetection_induction now (fun s => LoopInv m0 s j)
    (fun s d h => LoopInv_step now m0 j s d h) faces _ (LoopInv_init m0 j)

theorem processDetection_WF (now : Int) (s : LoopState) (d : BitmapBounds)
    (h : FaceMap.WF s.m_trackedFaces ∧ FaceMap.WF s.currentFaces) :
    FaceMap.WF (processDetection now s d).m_trackedFaces ∧
      FaceMap.WF (processDetection now s d).currentFaces := by
  cases hfm : findMatch d s.m_trackedFaces with
  | none =>
    rw [processDetection_unmatched now s d hfm]
    exact ⟨h.1, FaceMap.assign_WF _ _ _ h.2⟩
  | some k =>
    obtain ⟨e, he⟩ := findMatch_lookup d _ k hfm
    rw [processDetection_matched now s d k e hfm he]
    exact ⟨FaceMap.assign_WF _ _ _ h.1, FaceMap.assign_WF _ _ _ h.2⟩

theorem ProcessFrame_WF (tracked : FaceMap) (faces : List BitmapBounds) (now : Int)
    (h : FaceMap.WF tracked) : FaceMap.WF (ProcessFrame tracked faces now).m_trackedFaces :=
  (foldl_processDetection_induction now
    (fun s => FaceMap.WF s.m_trackedFaces ∧ FaceMap.WF s.currentFaces)
    (fun s d hs => processDetection_WF now s d hs) faces _
    ⟨h, by simp [FaceMap.WF]⟩).2

/-! ## The counter `faceId` and the map `currentFaces` -/

theorem processDetection_faceId (now : Int) (s : LoopState) (d : BitmapBounds) :
    (processDetection now s d).faceId = s.faceId ∨
      (findMatch d s.m_trackedFaces = none ∧
        (processDetection now s d).faceId = (s.faceId + 1) % U32) := by
  cases hfm : findMatch d s.m_trackedFaces with
  | none =>
    rw [processDetection_unmatched now s d hfm]
    exact Or.inr ⟨rfl, rfl⟩
  | some k =>
    obtain ⟨e, he⟩ := findMatch_lookup d _ k hfm
    rw [processDetection_matched now s d k e hfm he]
    exact Or.inl rfl

theorem faceId_le_foldl (now : Int) (faces : List BitmapBounds) (s : LoopState)
    (h : s.faceId + faces.length < U32) :
    s.faceId ≤ (faces.foldl (processDetection now) s).faceId := by
  induction faces generalizing s with
  | nil => exact le_refl _
  | cons d ds ih =>
    simp only [List.length_cons] at h
    simp only [List.foldl_cons]
    have hmod : (s.faceId + 1) % U32 = s.faceId + 1 := Nat.mod_eq_of_lt (by omega)
    rcases processDetection_faceId now s d with h1 | ⟨_, h1⟩
    · have := ih (processDetection now s d) (by rw [h1]; omega)
      omega
    · have := ih (processDetection now s d) (by rw [h1, hmod]; omega)
      omega

theorem currentFaces_step (now : Int) (id : Nat) (s : LoopState) (d : BitmapBounds)
    (hcur : ∀ g, FaceMap.lookup id s.currentFaces = some g →
      FaceMap.lookup id s.m_trackedFaces = some g)
    (hid : findMatch d s.m_trackedFaces = none → s.faceId ≠ id) :
    ∀ g, FaceMap.lookup id (processDetection now s d).currentFaces = some g →
      FaceMap.lookup id (processDetection now s d).m_trackedFaces = some g := by
  cases hfm : findMatch d s.m_trackedFaces with
  | none =>
    rw [processDetection_unmatched now s d hfm]
    intro g hg
    change FaceMap.lookup id (FaceMap.assign s.faceId _ _) = some g at hg
    rw [FaceMap.lookup_assign_ne id s.faceId _ _ (Ne.symm (hid hfm))] at hg
    exact hcur g hg
  | some k =>
    obtain ⟨e, he⟩ := findMatch_lookup d _ k hfm
    rw [processDetection_matched now s d k e hfm he]
    intro g hg
    change FaceMap.lookup id (FaceMap.assign k _ _) = some g at hg
    show FaceMap.lookup id (FaceMap.assign k _ _) = some g
    by_cases hik : id = k
    · subst hik
      rw [FaceMap.lookup_assign_self] at hg ⊢
      exact hg
    · rw [FaceMap.lookup_assign_ne id k _ _ hik] at hg ⊢
      exact hcur g hg

theorem currentFaces_foldl (now : Int) (id : Nat) (faces : List BitmapBounds) (s : LoopState)
    (h : s.faceId + faces.length < U32)
    (hfinal : (faces.foldl (processDetection now) s).faceId ≤ id)
    (hcur : ∀ g, FaceMap.lookup id s.currentFaces = some g →
      FaceMap.lookup id s.m_trackedFaces = some g) :
    ∀ g, FaceMap.lookup id (faces.foldl (processDetection now) s).currentFaces = some g →
      FaceMap.lookup id (faces.foldl (processDetection now) s).m_trackedFaces = some g := by
  induction faces generalizing s with
  | nil => exact hcur
  | cons d ds ih =>
    simp only [List.length_cons] at h
    simp only [List.foldl_cons] at hfinal ⊢
    have hmod : (s.faceId + 1) % U32 = s.faceId + 1 := Nat.mod_eq_of_lt (by omega)
    have hbound : (processDetection now s d).faceId + ds.length < U32 := by
      rcases processDetection_faceId now s d with h1 | ⟨_, h1⟩
      · rw [h1]; omega
      · rw [h1, hmod]; omega
    have hmono := faceId_le_foldl now ds (processDetection now s d) hbound
    refine ih (processDetection now s d) hbound hfinal ?_
    refine currentFaces_step now id s d hcur ?_
    intro hnone
    rcases processDetection_faceId now s d with h1 | ⟨_, h1⟩
    · have hun := processDetection_unmatched now s d hnone
      have : (processDetection now s d).faceId = (s.faceId + 1) % U32 := by rw [hun]
      rw [hmod] at this
      omega
    · rw [hmod] at h1
      omega

theorem ProcessFrame_tracked_lookup (tracked : FaceMap) (faces : List BitmapBounds) (now : Int)
    (id : Nat) (hlen : faces.length < U32) (hid : (ProcessFrame tracked faces now).faceId ≤ id) :
    ∀ g, FaceMap.lookup id (ProcessFrame tracked faces now).m_trackedFaces = some g →
      FaceMap.lookup id (detectionLoop now tracked faces).m_trackedFaces = some g := by
  refine currentFaces_foldl now id faces _ (by simpa using hlen) hid ?_
  intro g hg
  simp [FaceMap.lookup] at hg

theorem ProcessFrame_flag (tracked : FaceMap) (faces : List BitmapBounds) (now : Int)
    (id : Nat) (hlen : faces.length < U32) (hid : (ProcessFrame tracked faces now).faceId ≤ id)
    (b : Bool) (h : capturedFlag id (ProcessFrame tracked faces now).m_trackedFaces = some b) :
    capturedFlag id (detectionLoop now tracked faces).m_trackedFaces = some b := by
  unfold capturedFlag at h ⊢
  cases hl : FaceMap.lookup id (ProcessFrame tracked faces now).m_trackedFaces with
  | none => rw [hl] at h; simp at h
  | some g =>
    rw [hl] at h
    rw [ProcessFrame_tracked_lookup tracked faces now id hlen hid g hl]
    exact h

/-! ## One update, seen from one id -/

theorem ProcessFrame_flag_stays (tracked : FaceMap) (faces : List BitmapBounds) (now : Int)
    (id : Nat) (hlen : faces.length < U32) (hid : (ProcessFrame tracked faces now).faceId ≤ id)
    (h : capturedFlag id tracked = some true) :
    capturedFlag id (ProcessFrame tracked faces now).m_trackedFaces ≠ some false := by
  intro hfalse
  have h1 := ProcessFrame_flag tracked faces now id hlen hid false hfalse
  have h2 := (LoopInv_detectionLoop now tracked faces id).2.2.1 h
  rw [h1] at h2
  simp at h2

theorem ProcessFrame_unarmed (tracked : FaceMap) (faces : List BitmapBounds) (now : Int)
    (id : Nat) (hlen : faces.length < U32) (hid : (ProcessFrame tracked faces now).faceId ≤ id)
    (h : capturedFlag id tracked ≠ some false) :
    callCount id (ProcessFrame tracked faces now).captureCalls = 0 ∧
      capturedFlag id (ProcessFrame tracked faces now).m_trackedFaces ≠ some false := by
  obtain ⟨h1, h2, h3, h4, _, _⟩ := LoopInv_detectionLoop now tracked faces id
  refine ⟨?_, ?_⟩
  · show callCount id (detectionLoop now tracked faces).captureCalls = 0
    by_contra hne
    exact h (h2 (by omega)).1
  · intro hfalse
    have hf := ProcessFrame_flag tracked faces now id hlen hid false hfalse
    cases h0 : capturedFlag id tracked with
    | none =>
      have hnone : FaceMap.lookup id tracked = none := by
        simpa [capturedFlag] using h0
      have := h4.mpr hnone
      simp [capturedFlag, this] at hf
    | some b =>
      cases b
      · exact h h0
      · have := h3 h0
        rw [hf] at this
        simp at this

theorem ProcessFrame_armed (tracked : FaceMap) (faces : List BitmapBounds) (now : Int)
    (id : Nat) (hlen : faces.length < U32) (hid : (ProcessFrame tracked faces now).faceId ≤ id) :
    callCount id (ProcessFrame tracked faces now).captureCalls ≤ 1 ∧
      (callCount id (ProcessFrame tracked faces now).captureCalls = 1 →
        capturedFlag id (ProcessFrame tracked faces now).m_trackedFaces ≠ some false) := by
  obtain ⟨h1, h2, _, _, _, _⟩ := LoopInv_detectionLoop now tracked faces id
  refine ⟨h1, ?_⟩
  intro hc hfalse
  have hf := ProcessFrame_flag tracked faces now id hlen hid false hfalse
  have := (h2 hc).2
  rw [hf] at this
  simp at this

/-! ## Runs of updates -/

theorem runFrames_callCount (id : Nat) (frames : List (List BitmapBounds × Int))
    (tracked : FaceMap) (hlen : ∀ fr ∈ frames, fr.1.length < U32)
    (hnew : ∀ r ∈ runFrames tracked frames, r.faceId ≤ id) :
    ((runFrames tracked frames).map (fun r => callCount id r.captureCalls)).sum ≤ 1 ∧
      (capturedFlag id tracked ≠ some false →
        ((runFrames tracked frames).map (fun r => callCount id r.captureCalls)).sum = 0) := by
  induction frames generalizing tracked with
  | nil => simp [runFrames]
  | cons fr rest ih =>
    simp only [runFrames, List.mem_cons, forall_eq_or_imp] at hnew hlen
    obtain ⟨hid, hnew'⟩ := hnew
    obtain ⟨hl, hlen'⟩ := hlen
    obtain ⟨ih1, ih2⟩ := ih _ hlen' hnew'
    simp only [runFrames, List.map_cons, List.sum_cons]
    have harm := ProcessFrame_armed tracked fr.1 fr.2 id hl hid
    refine ⟨?_, ?_⟩
    · by_cases hc : callCount id (ProcessFrame tracked fr.1 fr.2).captureCalls = 1
      · have := ih2 (harm.2 hc)
        omega
      · have := harm.1
        omega
    · intro hun
      have := ProcessFrame_unarmed tracked fr.1 fr.2 id hl hid hun
      have := ih2 this.2
      omega

theorem runFrames_flag_chain (id : Nat) (frames : List (List BitmapBounds × Int))
    (tracked : FaceMap) (hlen : ∀ fr ∈ frames, fr.1.length < U32)
    (hnew : ∀ r ∈ runFrames tracked frames, r.faceId ≤ id) :
    List.Chain (fun a b => capturedFlag id a = some true → capturedFlag id b ≠ some false)
      tracked ((runFrames tracked frames).map (fun r => r.m_trackedFaces)) := by
  induction frames generalizing tracked with
  | nil => simp [runFrames]
  | cons fr rest ih =>
    simp only [runFrames, List.mem_cons, forall_eq_or_imp] at hnew hlen
    obtain ⟨hid, hnew'⟩ := hnew
    obtain ⟨hl, hlen'⟩ := hlen
    simp only [runFrames, List.map_cons, List.chain_cons]
    exact ⟨ProcessFrame_flag_stays tracked fr.1 fr.2 id hl hid, ih _ hlen' hnew'⟩

/-! ## Frames with a single detection -/

theorem durationReached_iff (now start : Int) :
    durationReached now start = true ↔ m_captureThreshold * ticksPerSecond ≤ now - start := by
  simp [durationReached]

theorem durationReached_eq_false_iff (now start : Int) :
    durationReached now start = false ↔ now - start < m_captureThreshold * ticksPerSecond := by
  simp [durationReached]

theorem ProcessFrame_single_new (tracked : FaceMap) (box : BitmapBounds) (t : Int)
    (h : findMatch box tracked = none) :
    ProcessFrame tracked [box] t =
      { m_trackedFaces := [(0, ⟨box, t, false⟩)], m_latestFaces := [box],
        captureCalls := [], faceId := 1 } := by
  have hs : findMatch box
      ({ m_trackedFaces := tracked, currentFaces := [], faceId := 0, captureCalls := [] } :
        LoopState).m_trackedFaces = none := h
  simp only [ProcessFrame, detectionLoop, List.foldl]
  rw [processDetection_unmatched t _ box hs]
  simp [FaceMap.assign, U32]

theorem ProcessFrame_single_tracked (box : BitmapBounds) (s t : Int) (c : Bool)
    (h : (ComputeIoU box box).gtHalf = true) :
    ProcessFrame [(0, ⟨box, s, c⟩)] [box] t =
      { m_trackedFaces := [(0, ⟨box, s, c || durationReached t s⟩)], m_latestFaces := [box],
        captureCalls := if (!c && durationReached t s) = true then [(0, ⟨box, s, false⟩)] else [],
        faceId := 0 } := by
  have hs : findMatch box
      ({ m_trackedFaces := [(0, ⟨box, s, c⟩)], currentFaces := [], faceId := 0,
         captureCalls := [] } : LoopState).m_trackedFaces = some 0 := by
    simp [findMatch, h]
  simp only [ProcessFrame, detectionLoop, List.foldl]
  rw [processDetection_matched t _ box 0 ⟨box, s, c⟩ hs (by simp [FaceMap.lookup])]
  simp [FaceMap.assign]

theorem callsAt_cons_zero (r : FrameResult) (rs : List FrameResult) :
    callsAt (r :: rs) 0 = r.captureCalls := by
  simp [callsAt]

theorem callsAt_cons_succ (r : FrameResult) (rs : List FrameResult) (k : Nat) :
    callsAt (r :: rs) (k + 1) = callsAt rs k := by
  simp [callsAt]

theorem tracked_run_calls (box : BitmapBounds) (s : Int)
    (h : (ComputeIoU box box).gtHalf = true) (ts : List Int) (c : Bool) (k : Nat)
    (hk : k < ts.length) :
    (callsAt (runFrames [(0, ⟨box, s, c⟩)] (ts.map (fun t => ([box], t)))) k ≠ [] ↔
        (c = false ∧ m_captureThreshold * ticksPerSecond ≤ ts.getD k 0 - s ∧
          ∀ j, j < k → ts.getD j 0 - s < m_captureThreshold * ticksPerSecond)) ∧
      (callsAt (runFrames [(0, ⟨box, s, c⟩)] (ts.map (fun t => ([box], t)))) k ≠ [] →
        callsAt (runFrames [(0, ⟨box, s, c⟩)] (ts.map (fun t => ([box], t)))) k
          = [(0, ⟨box, s, false⟩)]) := by
  induction ts generalizing c k with
  | nil => simp at hk
  | cons t ts ih =>
    simp only [List.map_cons, runFrames, ProcessFrame_single_tracked box s t c h]
    cases k with
    | zero =>
      rw [callsAt_cons_zero]
      simp only [List.getD_cons_zero]
      cases c <;> cases hr : durationReached t s
      · have := (durationReached_eq_false_iff t s).mp hr
        simp
        omega
      · have := (durationReached_iff t s).mp hr
        simp
        omega
      · simp
      · simp
    | succ k =>
      rw [callsAt_cons_succ]
      simp only [List.length_cons, Nat.add_lt_add_iff_right] at hk
      obtain ⟨ih1, ih2⟩ := ih (c || durationReached t s) k hk
      refine ⟨?_, ih2⟩
      rw [ih1]
      simp only [List.getD_cons_succ]
      constructor
      · rintro ⟨hc, hreach, hbefore⟩
        simp only [Bool.or_eq_false_iff] at hc
        refine ⟨hc.1, hreach, ?_⟩
        intro j hj
        cases j with
        | zero =>
          simp only [List.getD_cons_zero]
          exact (durationReached_eq_false_iff t s).mp hc.2
        | succ j =>
          simp only [List.getD_cons_succ]
          exact hbefore j (by omega)
      · rintro ⟨hc, hreach, hbefore⟩
        refine ⟨?_, hreach, ?_⟩
        · simp only [Bool.or_eq_false_iff]
          refine ⟨hc, (durationReached_eq_false_iff t s).mpr ?_⟩
          simpa using hbefore 0 (by omega)
        · intro j hj
          simpa using hbefore (j + 1) (by omega)

theorem threshold_pos : 0 < m_captureThreshold * ticksPerSecond := by decide

theorem runFrames_append (a b : List (List BitmapBounds × Int)) (tracked : FaceMap) :
    runFrames tracked (a ++ b) = runFrames tracked a ++ runFrames (finalTracked tracked a) b := by
  induction a generalizing tracked with
  | nil => rfl
  | cons fr rest ih => simp [runFrames, finalTracked, ih]

theorem finalTracked_append (a b : List (List BitmapBounds × Int)) (tracked : FaceMap) :
    finalTracked tracked (a ++ b) = finalTracked (finalTracked tracked a) b := by
  induction a generalizing tracked with
  | nil => rfl
  | cons fr rest ih => simp [finalTracked, ih]

theorem findMatch_single (box other : BitmapBounds) (s : Int) (c : Bool)
    (h : (ComputeIoU box other).gtHalf = false) :
    findMatch box [(0, ⟨other, s, c⟩)] = none := by
  simp [findMatch, h]

theorem single_box_run_no_capture (box : BitmapBounds) (t0 : Int) (ts : List Int) (s : Int)
    (hs : (ComputeIoU box box).gtHalf = true → s = t0)
    (hts : ∀ t ∈ ts, t - t0 < m_captureThreshold * ticksPerSecond) :
    ∀ r ∈ runFrames [(0, ⟨box, s, false⟩)] (ts.map (fun t => ([box], t))),
      r.captureCalls = [] := by
  induction ts generalizing s with
  | nil => simp [runFrames]
  | cons t ts ih =>
    simp only [List.mem_cons, forall_eq_or_imp] at hts
    obtain ⟨ht, hts'⟩ := hts
    simp only [List.map_cons, runFrames, List.mem_cons, forall_eq_or_imp]
    cases hself : (ComputeIoU box box).gtHalf with
    | true =>
      have hst := hs hself
      subst hst
      have hr : durationReached t s = false := (durationReached_eq_false_iff t s).mpr ht
      rw [ProcessFrame_single_tracked box s t false hself]
      simp only [hr, Bool.or_false, Bool.and_false]
      exact ⟨by simp, ih s hs hts'⟩
    | false =>
      rw [ProcessFrame_single_new _ box t (findMatch_single box box s false hself)]
      refine ⟨rfl, ih t ?_ hts'⟩
      intro h
      rw [hself] at h
      cases h

/-! ## Two detections on one tracked face -/

/-- C9: when the intersection of two rectangles has zero area in exact
integer arithmetic (disjoint, touching, or one of them of zero width or
height), `ComputeIoU` takes its early return and yields `0.0f`, whether or not
`X + Width` or `Y + Height` wrap modulo `2 ^ 32`. -/
theorem ComputeIoU_zero_of_empty_intersection (a b : BitmapBounds)
    (h : exactIntersectionArea a b = 0) : ComputeIoU a b = F32.zero := by
  have hxa : (a.X + a.Width) % U32 ≤ a.X + a.Width := Nat.mod_le _ _
  have hxb : (b.X + b.Width) % U32 ≤ b.X + b.Width := Nat.mod_le _ _
  have hya : (a.Y + a.Height) % U32 ≤ a.Y + a.Height := Nat.mod_le _ _
  have hyb : (b.Y + b.Height) % U32 ≤ b.Y + b.Height := Nat.mod_le _ _
  unfold exactIntersectionArea at h
  unfold ComputeIoU
  simp only [umax, umin]
  rw [if_pos]
  rcases Nat.mul_eq_zero.mp h with h0 | h0
  · left
    split_ifs <;> omega
  · right
    split_ifs <;> omega

/-- C9, at an input: two rectangles that touch along an edge, the second one
with `X + Width` wrapping modulo `2 ^ 32`. -/
theorem ComputeIoU_zero_of_empty_intersection_witness :
    exactIntersectionArea ⟨0, 0, 10, 10⟩ ⟨10, 0, 4294967295, 10⟩ = 0 ∧
      ComputeIoU ⟨0, 0, 10, 10⟩ ⟨10, 0, 4294967295, 10⟩ = F32.zero :=
  ⟨by decide, ComputeIoU_zero_of_empty_intersection _ _ (by decide)⟩

/-- C8 fails as stated: for a rectangle of zero width `ComputeIoU(r, r)` is
`0.0f`, not `1.0f`. -/
theorem ComputeIoU_self_zero_width :
    ComputeIoU ⟨3, 4, 0, 5⟩ ⟨3, 4, 0, 5⟩ = F32.zero ∧
      ComputeIoU ⟨3, 4, 0, 5⟩ ⟨3, 4, 0, 5⟩ ≠ F32.one := by
  decide

/-- C8, amended: for a rectangle whose `X + Width` and `Y + Height` stay below
`2 ^ 32` and whose area `Width * Height` is not a multiple of `2 ^ 32` (so
width and height are at least 1), `ComputeIoU(r, r)` is `1.0f`. -/
theorem ComputeIoU_self_eq_one (r : BitmapBounds) (hx : r.X + r.Width < U32)
    (hy : r.Y + r.Height < U32) (ha : (r.Width * r.Height) % U32 ≠ 0) :
    ComputeIoU r r = F32.one :=
  ComputeIoU_self r hx hy ha

/-- C8, amended, at the rectangle `(100, 50, 64, 64)`. -/
theorem ComputeIoU_self_eq_one_witness :
    (100 + 64 < U32 ∧ 50 + 64 < U32 ∧ (64 * 64) % U32 ≠ 0) ∧
      ComputeIoU ⟨100, 50, 64, 64⟩ ⟨100, 50, 64, 64⟩ = F32.one :=
  ⟨by decide, ComputeIoU_self_eq_one ⟨100, 50, 64, 64⟩ (by decide) (by decide) (by decide)⟩

/-- C7: for a bitmap with `PixelWidth ≥ 1` and `PixelHeight ≥ 1` the adjusted
bounds of `CaptureFaceImage` lie inside the bitmap, in exact integer
arithmetic. -/
theorem adjustedBounds_inside (faceBox : BitmapBounds) (PixelWidth PixelHeight : Int)
    (hw : 1 ≤ PixelWidth) (hh : 1 ≤ PixelHeight) :
    ((adjustedBounds faceBox PixelWidth PixelHeight).X : Int) < PixelWidth ∧
    ((adjustedBounds faceBox PixelWidth PixelHeight).Y : Int) < PixelHeight ∧
    ((adjustedBounds faceBox PixelWidth PixelHeight).X : Int)
      + (adjustedBounds faceBox PixelWidth PixelHeight).Width ≤ PixelWidth ∧
    ((adjustedBounds faceBox PixelWidth PixelHeight).Y : Int)
      + (adjustedBounds faceBox PixelWidth PixelHeight).Height ≤ PixelHeight := by
  simp only [adjustedBounds, umin, toUINT32]
  refine ⟨?_, ?_, ?_, ?_⟩ <;> split_ifs <;> omega

/-- C7, at a face box that sticks out of a 640 x 480 bitmap. -/
theorem adjustedBounds_inside_witness :
    ((1 : Int) ≤ 640 ∧ (1 : Int) ≤ 480) ∧
      (((adjustedBounds ⟨600, 470, 100, 4294967295⟩ 640 480).X : Int) < 640 ∧
      ((adjustedBounds ⟨600, 470, 100, 4294967295⟩ 640 480).Y : Int) < 480 ∧
      ((adjustedBounds ⟨600, 470, 100, 4294967295⟩ 640 480).X : Int)
        + (adjustedBounds ⟨600, 470, 100, 4294967295⟩ 640 480).Width ≤ 640 ∧
      ((adjustedBounds ⟨600, 470, 100, 4294967295⟩ 640 480).Y : Int)
        + (adjustedBounds ⟨600, 470, 100, 4294967295⟩ 640 480).Height ≤ 480) :=
  ⟨by decide, adjustedBounds_inside ⟨600, 470, 100, 4294967295⟩ 640 480 (by decide) (by decide)⟩

/-- C6: an update whose detection list is empty leaves `m_trackedFaces` empty
and calls `CaptureFaceImage` for no face, whatever was tracked before. -/
theorem ProcessFrame_no_detections (tracked : FaceMap) (now : Int) :
    (ProcessFrame tracked [] now).m_trackedFaces = [] ∧
      (ProcessFrame tracked [] now).captureCalls = [] :=
  ⟨rfl, rfl⟩

example : ComputeIoU ⟨0,0,10,10⟩ ⟨0,0,10,10⟩ = F32.one := by decide
/-- C10: one update calls `CaptureFaceImage` at most once for any one id, and
every call is made for a face that was tracked before the update with its flag
clear (the record passed has that face's `StartTime`), never for a face
created in the update. -/
theorem ProcessFrame_captures_once (tracked : FaceMap) (faces : List BitmapBounds) (now : Int)
    (id : Nat) :
    callCount id (ProcessFrame tracked faces now).captureCalls ≤ 1 ∧
      ∀ c ∈ (ProcessFrame tracked faces now).captureCalls, c.1 = id →
        ∃ f, FaceMap.lookup id tracked = some f ∧ f.ImageCaptured = false ∧
          c.2.StartTime = f.StartTime ∧ c.2.ImageCaptured = false :=
  ⟨(LoopInv_detectionLoop now tracked faces id).1,
    (LoopInv_detectionLoop now tracked faces id).2.2.2.2.2⟩

/-- C10, at a frame in which three detections match the tracked face 0 after
the threshold has passed: one call is made. -/
theorem ProcessFrame_captures_once_witness :
    callCount 0 (ProcessFrame [(0, ⟨⟨0, 0, 10, 10⟩, 0, false⟩)]
        [⟨0, 0, 10, 10⟩, ⟨0, 0, 10, 9⟩, ⟨0, 0, 10, 10⟩] 3000000000).captureCalls = 1 ∧
      callCount 0 (ProcessFrame [(0, ⟨⟨0, 0, 10, 10⟩, 0, false⟩)]
        [⟨0, 0, 10, 10⟩, ⟨0, 0, 10, 9⟩, ⟨0, 0, 10, 10⟩] 3000000000).captureCalls ≤ 1 :=
  ⟨by decide, (ProcessFrame_captures_once _ _ _ 0).1⟩

/-- C1 fails as stated: from the empty tracker, a box is captured under id 0,
then it disappears while another box appears, which is stored under id 0 again
with the flag clear and is captured in turn. Id 0 is in the tracked set after
every update, its flag goes from true to false, and `CaptureFaceImage` is
called twice for it. -/
theorem captured_flag_reset_under_reused_id :
    (runFrames [] [([⟨0, 0, 10, 10⟩], 0), ([⟨0, 0, 10, 10⟩], 3000000000),
        ([⟨500, 500, 10, 10⟩], 3500000000), ([⟨500, 500, 10, 10⟩], 6500000000)]).map
      (fun r => (capturedFlag 0 r.m_trackedFaces, callCount 0 r.captureCalls))
      = [(some false, 0), (some true, 1), (some false, 0), (some true, 1)] := by
  decide

/-- C1, amended: over updates that create no new face under `id` (every
detection list has fewer than `2 ^ 32` entries and the counter `faceId` ends
at most at `id`), the flag stored under `id` never goes from true to false
from one update to the next, and `CaptureFaceImage` is called at most once for
`id` over the whole run. -/
theorem captured_monotone_and_once (tracked : FaceMap)
    (frames : List (List BitmapBounds × Int)) (id : Nat)
    (hlen : ∀ fr ∈ frames, fr.1.length < U32)
    (hnew : ∀ r ∈ runFrames tracked frames, r.faceId ≤ id) :
    List.Chain (fun a b => capturedFlag id a = some true → capturedFlag id b ≠ some false)
        tracked ((runFrames tracked frames).map (fun r => r.m_trackedFaces)) ∧
      ((runFrames tracked frames).map (fun r => callCount id r.captureCalls)).sum ≤ 1 :=
  ⟨runFrames_flag_chain id frames tracked hlen hnew,
    (runFrames_callCount id frames tracked hlen hnew).1⟩

/-- C1, amended, at a run in which face 0 is matched in three updates and
captured in the first of them. -/
theorem captured_monotone_and_once_witness :
    ((∀ fr ∈ [([(⟨0, 0, 10, 10⟩ : BitmapBounds)], (3000000000 : Int)),
          ([⟨0, 0, 10, 9⟩], 3500000000), ([⟨0, 0, 10, 10⟩], 4000000000)],
          fr.1.length < U32) ∧
      (∀ r ∈ runFrames [(0, ⟨⟨0, 0, 10, 10⟩, 0, false⟩)]
          [([⟨0, 0, 10, 10⟩], 3000000000), ([⟨0, 0, 10, 9⟩], 3500000000),
            ([⟨0, 0, 10, 10⟩], 4000000000)], r.faceId ≤ 0)) ∧
      (List.Chain (fun a b => capturedFlag 0 a = some true → capturedFlag 0 b ≠ some false)
        [(0, ⟨⟨0, 0, 10, 10⟩, 0, false⟩)]
        ((runFrames [(0, ⟨⟨0, 0, 10, 10⟩, 0, false⟩)]
          [([⟨0, 0, 10, 10⟩], 3000000000), ([⟨0, 0, 10, 9⟩], 3500000000),
            ([⟨0, 0, 10, 10⟩], 4000000000)]).map (fun r => r.m_trackedFaces)) ∧
      ((runFrames [(0, ⟨⟨0, 0, 10, 10⟩, 0, false⟩)]
          [([⟨0, 0, 10, 10⟩], 3000000000), ([⟨0, 0, 10, 9⟩], 3500000000),
            ([⟨0, 0, 10, 10⟩], 4000000000)]).map
          (fun r => callCount 0 r.captureCalls)).sum ≤ 1) :=
  ⟨⟨by decide, by decide⟩, captured_monotone_and_once _ _ 0 (by decide) (by decide)⟩

/-- C3, at a failing input: face 0 is tracked and captured; in the next frame
the first detection matches face 0 and carries it into `currentFaces`, the
second detection matches nothing and is stored under `faceId = 0` too, so the
new face replaces the matched one. -/
theorem new_face_id_collides_with_matched_id :
    findMatch ⟨0, 0, 10, 10⟩ [(0, ⟨⟨0, 0, 10, 10⟩, 0, true⟩)] = some 0 ∧
    findMatch ⟨500, 500, 10, 10⟩ [(0, ⟨⟨0, 0, 10, 10⟩, 0, true⟩)] = none ∧
    (detectionLoop 3500000000 [(0, ⟨⟨0, 0, 10, 10⟩, 0, true⟩)] [⟨0, 0, 10, 10⟩]).currentFaces
      = [(0, ⟨⟨0, 0, 10, 10⟩, 0, true⟩)] ∧
    (ProcessFrame [(0, ⟨⟨0, 0, 10, 10⟩, 0, true⟩)]
        [⟨0, 0, 10, 10⟩, ⟨500, 500, 10, 10⟩] 3500000000).m_trackedFaces
      = [(0, ⟨⟨500, 500, 10, 10⟩, 3500000000, false⟩)] ∧
    (runFrames [] [([⟨0, 0, 10, 10⟩], 0), ([⟨0, 0, 10, 10⟩], 3000000000),
        ([⟨0, 0, 10, 10⟩, ⟨500, 500, 10, 10⟩], 3500000000)]).map (fun r => r.m_trackedFaces)
      = [[(0, ⟨⟨0, 0, 10, 10⟩, 0, false⟩)], [(0, ⟨⟨0, 0, 10, 10⟩, 0, true⟩)],
          [(0, ⟨⟨500, 500, 10, 10⟩, 3500000000, false⟩)]] := by
  decide

theorem single_box_capture_calls (tracked : FaceMap) (box : BitmapBounds)
    (t0 : Int) (ts : List Int) (k : Nat)
    (hx : box.X + box.Width < U32) (hy : box.Y + box.Height < U32)
    (ha : (box.Width * box.Height) % U32 ≠ 0)
    (hnew : findMatch box tracked = none) (hk : k < (t0 :: ts).length) :
    (callsAt (runFrames tracked ((t0 :: ts).map (fun t => ([box], t)))) k ≠ [] ↔
        firstReached t0 (t0 :: ts) k) ∧
      (callsAt (runFrames tracked ((t0 :: ts).map (fun t => ([box], t)))) k ≠ [] →
        callsAt (runFrames tracked ((t0 :: ts).map (fun t => ([box], t)))) k
          = [(0, ⟨box, t0, false⟩)]) := by
  have hself : (ComputeIoU box box).gtHalf = true := by
    rw [ComputeIoU_self box hx hy ha]
    exact F32.one_gtHalf
  have hpos := threshold_pos
  simp only [List.map_cons, runFrames, ProcessFrame_single_new tracked box t0 hnew]
  cases k with
  | zero =>
    rw [callsAt_cons_zero]
    simp only [firstReached, List.getD_cons_zero]
    refine ⟨?_, by simp⟩
    constructor
    · intro h
      exact absurd rfl h
    · rintro ⟨h, _⟩
      omega
  | succ k =>
    rw [callsAt_cons_succ]
    simp only [List.length_cons, Nat.add_lt_add_iff_right] at hk
    obtain ⟨h1, h2⟩ := tracked_run_calls box t0 hself ts false k hk
    refine ⟨?_, h2⟩
    rw [h1]
    simp only [firstReached, List.getD_cons_succ, true_and]
    constructor
    · rintro ⟨hreach, hbefore⟩
      refine ⟨hreach, ?_⟩
      intro j hj
      cases j with
      | zero =>
        simp only [List.getD_cons_zero]
        omega
      | succ j =>
        simp only [List.getD_cons_succ]
        exact hbefore j (by omega)
    · rintro ⟨hreach, hbefore⟩
      refine ⟨hreach, ?_⟩
      intro j hj
      simpa using hbefore (j + 1) (by omega)

/-- C2: a box the face tracker can return, of positive area, is detected alone
in every frame, at times `t0, t1, ...`, and matches no face tracked before the
first frame (as from the fresh tracker). Then update `k` calls
`CaptureFaceImage` exactly when `k` is the least index with
`t_k - t0 ≥ m_captureThreshold`, and the call is the single call for face 0
with `StartTime = t0`; no earlier and no later update makes a call. -/
theorem capture_at_first_threshold_update (tracked : FaceMap) (box : BitmapBounds)
    (t0 : Int) (ts : List Int) (k : Nat)
    (hpos : 0 < box.Width * box.Height) (hdet : DetectedFaceBox box)
    (hnew : findMatch box tracked = none) (hk : k < (t0 :: ts).length) :
    (callsAt (runFrames tracked ((t0 :: ts).map (fun t => ([box], t)))) k ≠ [] ↔
        firstReached t0 (t0 :: ts) k) ∧
      (callsAt (runFrames tracked ((t0 :: ts).map (fun t => ([box], t)))) k ≠ [] →
        callsAt (runFrames tracked ((t0 :: ts).map (fun t => ([box], t)))) k
          = [(0, ⟨box, t0, false⟩)]) := by
  obtain ⟨hw, hh, hx, hy⟩ := hdet
  unfold MaxDetectableFaceSize at hw hh
  have harea : box.Width * box.Height ≤ 512 * 512 := Nat.mul_le_mul hw hh
  have hmod : (box.Width * box.Height) % U32 = box.Width * box.Height :=
    Nat.mod_eq_of_lt (by unfold U32; omega)
  exact single_box_capture_calls tracked box t0 ts k (by unfold U32; omega)
    (by unfold U32; omega) (by rw [hmod]; omega) hnew hk

/-- C2, with frames every 0.5 s from the fresh tracker: the 7th update (index 6)
is the one that calls `CaptureFaceImage`. -/
theorem capture_at_first_threshold_update_witness :
    ((0 < 64 * 64 ∧ DetectedFaceBox ⟨100, 50, 64, 64⟩ ∧
        findMatch ⟨100, 50, 64, 64⟩ [] = none ∧
        6 < ((0 : Int) :: [500000000, 1000000000, 1500000000, 2000000000, 2500000000,
          3000000000, 3500000000, 4000000000]).length) ∧
      firstReached 0 [0, 500000000, 1000000000, 1500000000, 2000000000, 2500000000,
          3000000000, 3500000000, 4000000000] 6) ∧
      ((callsAt (runFrames [] (((0 : Int) :: [500000000, 1000000000, 1500000000, 2000000000,
          2500000000, 3000000000, 3500000000, 4000000000]).map
            (fun t => ([(⟨100, 50, 64, 64⟩ : BitmapBounds)], t)))) 6 ≠ [] ↔
        firstReached 0 ((0 : Int) :: [500000000, 1000000000, 1500000000, 2000000000,
          2500000000, 3000000000, 3500000000, 4000000000]) 6) ∧
      (callsAt (runFrames [] (((0 : Int) :: [500000000, 1000000000, 1500000000, 2000000000,
          2500000000, 3000000000, 3500000000, 4000000000]).map
            (fun t => ([(⟨100, 50, 64, 64⟩ : BitmapBounds)], t)))) 6 ≠ [] →
        callsAt (runFrames [] (((0 : Int) :: [500000000, 1000000000, 1500000000, 2000000000,
          2500000000, 3000000000, 3500000000, 4000000000]).map
            (fun t => ([(⟨100, 50, 64, 64⟩ : BitmapBounds)], t)))) 6
          = [(0, ⟨⟨100, 50, 64, 64⟩, 0, false⟩)])) :=
  ⟨⟨⟨by decide, by unfold DetectedFaceBox MaxDetectableFaceSize; decide, by decide, by decide⟩, by
      refine ⟨by decide, ?_⟩
      intro j hj
      interval_cases j <;> decide⟩,
    capture_at_first_threshold_update [] ⟨100, 50, 64, 64⟩ 0 _ 6
      (by decide) (by unfold DetectedFaceBox MaxDetectableFaceSize; decide) (by decide)
      (by decide)⟩

/-- C5: a box that matches no tracked face is detected alone in frames at
times `t0, t1, ...`, all less than `m_captureThreshold` after `t0`; then a
frame has no detection; then the box is detected again at time `v` and in
further frames, all less than `m_captureThreshold` after `v`. No update of the
run calls `CaptureFaceImage`, and after the reappearance the tracked set is
the single face 0 with `StartTime = v` and the flag clear. -/
theorem dwell_timer_restarts_after_loss (tracked : FaceMap) (box : BitmapBounds)
    (t0 : Int) (ts : List Int) (u v : Int) (ws : List Int)
    (hnew : findMatch box tracked = none)
    (hts : ∀ t ∈ ts, t - t0 < m_captureThreshold * ticksPerSecond)
    (hws : ∀ w ∈ ws, w - v < m_captureThreshold * ticksPerSecond) :
    (∀ r ∈ runFrames tracked
        ((t0 :: ts).map (fun t => ([box], t)) ++
          ([], u) :: ([box], v) :: ws.map (fun w => ([box], w))),
        r.captureCalls = []) ∧
      finalTracked tracked ((t0 :: ts).map (fun t => ([box], t)) ++ [([], u), ([box], v)])
        = [(0, ⟨box, v, false⟩)] := by
  have hempty : ∀ m : FaceMap, ProcessFrame m [] u
      = { m_trackedFaces := [], m_latestFaces := [], captureCalls := [], faceId := 0 } :=
    fun m => rfl
  have hnil : findMatch box [] = none := rfl
  refine ⟨?_, ?_⟩
  · rw [runFrames_append]
    intro r hr
    rcases List.mem_append.mp hr with hr | hr
    · simp only [List.map_cons, runFrames, ProcessFrame_single_new tracked box t0 hnew,
        List.mem_cons] at hr
      rcases hr with hr | hr
      · rw [hr]
      · exact single_box_run_no_capture box t0 ts t0 (fun _ => rfl) hts r hr
    · simp only [runFrames, hempty, ProcessFrame_single_new [] box v hnil,
        List.mem_cons] at hr
      rcases hr with hr | hr | hr
      · rw [hr]
      · rw [hr]
      · exact single_box_run_no_capture box v ws v (fun _ => rfl) hws r hr
  · rw [finalTracked_append]
    simp only [finalTracked, hempty, ProcessFrame_single_new [] box v hnil]

/-- C5, at a box tracked for 2.9 s, lost for one frame and detected again. -/
theorem dwell_timer_restarts_after_loss_witness :
    (findMatch ⟨100, 50, 64, 64⟩ [] = none ∧
      (∀ t ∈ [(1000000000 : Int), 2000000000, 2900000000],
        t - 0 < m_captureThreshold * ticksPerSecond) ∧
      (∀ w ∈ [(4000000000 : Int), 5000000000, 6400000000],
        w - 3500000000 < m_captureThreshold * ticksPerSecond)) ∧
    ((∀ r ∈ runFrames []
        (((0 : Int) :: [1000000000, 2000000000, 2900000000]).map
            (fun t => ([(⟨100, 50, 64, 64⟩ : BitmapBounds)], t)) ++
          ([], 3000000000) :: ([⟨100, 50, 64, 64⟩], 3500000000) ::
            [(4000000000 : Int), 5000000000, 6400000000].map
              (fun w => ([(⟨100, 50, 64, 64⟩ : BitmapBounds)], w))),
        r.captureCalls = []) ∧
      finalTracked [] (((0 : Int) :: [1000000000, 2000000000, 2900000000]).map
            (fun t => ([(⟨100, 50, 64, 64⟩ : BitmapBounds)], t)) ++
          [([], 3000000000), ([⟨100, 50, 64, 64⟩], 3500000000)])
        = [(0, ⟨⟨100, 50, 64, 64⟩, 3500000000, false⟩)]) :=
  ⟨by decide, dwell_timer_restarts_after_loss [] ⟨100, 50, 64, 64⟩ 0 _ 3000000000 3500000000 _
    (by decide) (by decide) (by decide)⟩

end HolographicFaceTracker
